import Mathlib

/-!
Shallow embedding of the flight-route service in `src/app/index.ts` and the
helpers it uses from `src/util/index.ts`.

The program keeps a list of airports and a list of directed, weighted routes.
The `/routes/:source/:destination` handler runs an inner function
`findShortestRoute` — a Dijkstra-like loop over a mutable list of `Node`
records `{ airport, distanceFromSource, previousNode }` — and then formats the
resulting list of routes.  JavaScript numbers (with `Infinity`) are embedded
as `WithTop ℚ`; object references are embedded as values (the mutated node is
replaced in place in the list; back-pointer references are snapshots, which is
faithful because the JS code never mutates a node after it has been removed
from the working list, and `previousNode` is only ever set to such a removed
node).  Thrown exceptions become `Except` errors, and the unbounded `while`
loop becomes a fuel-indexed recursion returning `none` when fuel runs out.
-/

/-- Airport record (`src/data`): stable numeric identity plus optional
IATA/ICAO codes.  The geographic position is never used by the code under
verification (distances are stored on routes), so it is omitted. -/
structure Airport where
  id : ℕ
  iata : Option String := none
  icao : Option String := none
deriving DecidableEq

/-- Route record (`src/data`): a directed edge with a scalar distance. -/
structure Route where
  source : Airport
  destination : Airport
  distance : ℚ
deriving DecidableEq

/-- Working record of the search (interface `Node`, index.ts lines 7-11):
`distanceFromSource` starts at `Infinity` (here `⊤ : WithTop ℚ`) and
`previousNode` is a back-pointer used for path reconstruction. -/
inductive Node where
  | mk (airport : Airport) (distanceFromSource : WithTop ℚ) (previousNode : Option Node)

/-- Structural boolean equality on nodes (the derive handler does not support
the nested `Option Node` field, so it is spelled out). -/
def Node.beq : Node → Node → Bool
  | .mk a₁ d₁ none, .mk a₂ d₂ none => a₁ == a₂ && d₁ == d₂
  | .mk a₁ d₁ (some p₁), .mk a₂ d₂ (some p₂) => a₁ == a₂ && d₁ == d₂ && Node.beq p₁ p₂
  | _, _ => false

theorem Node.beq_iff : ∀ a b : Node, Node.beq a b = true ↔ a = b
  | .mk a₁ d₁ none, .mk a₂ d₂ none => by
      simp [Node.beq]
  | .mk a₁ d₁ (some p₁), .mk a₂ d₂ (some p₂) => by
      have ih := Node.beq_iff p₁ p₂
      simp [Node.beq, ih, and_assoc]
  | .mk _ _ none, .mk _ _ (some _) => by
      simp [Node.beq]
  | .mk _ _ (some _), .mk _ _ none => by
      simp [Node.beq]

instance : DecidableEq Node := fun a b => decidable_of_iff _ (Node.beq_iff a b)

/-- Projection: the airport of a node. -/
def Node.airport : Node → Airport
  | .mk a _ _ => a

/-- Projection: the tentative distance of a node. -/
def Node.distanceFromSource : Node → WithTop ℚ
  | .mk _ d _ => d

/-- Projection: the back-pointer of a node. -/
def Node.previousNode : Node → Option Node
  | .mk _ _ p => p

/-- The two exceptions `findShortestRoute` can throw (index.ts lines 92 and
127), carrying the airport ids mentioned in the message strings. -/
inductive SearchError where
  | routeNotFound (sourceId destinationId : ℕ)
  | noRouteFound
deriving DecidableEq

instance {ε α : Type} [DecidableEq ε] [DecidableEq α] : DecidableEq (Except ε α) := fun a b =>
  match a, b with
  | .error e₁, .error e₂ => decidable_of_iff (e₁ = e₂) (by simp)
  | .ok v₁, .ok v₂ => decidable_of_iff (v₁ = v₂) (by simp)
  | .error _, .ok _ => isFalse (by simp)
  | .ok _, .error _ => isFalse (by simp)

/-- Replace the first element satisfying `p` by its image under `f`, leaving
the rest unchanged.  This is the value-semantics rendering of the JS in-place
mutation of the node returned by `nodes.find(...)`. -/
def updateFirst (p : Node → Bool) (f : Node → Node) : List Node → List Node
  | [] => []
  | x :: xs => if p x then f x :: xs else x :: updateFirst p f xs

/-- Line 80: `nodes.reduce((minNode, node) => node.distanceFromSource <
minNode.distanceFromSource ? node : minNode)`.  JS `reduce` without an initial
value folds the tail starting from the head, so it yields the first element
attaining the minimum distance. -/
def minNode (n : Node) (ns : List Node) : Node :=
  ns.foldl (fun m node => if node.distanceFromSource < m.distanceFromSource then node else m) n

/-- Lines 84-97: walk the `previousNode` chain back from the node that reached
the destination, looking up (line 90) the FIRST route in `routes` whose
endpoint ids match each step, `unshift`-ing it onto the result.  (The JS also
computes `currDistance` on line 89 but never uses it.)  A missing route throws
(line 92), embedded as `Except.error`. -/
def buildRoute (routes : List Route) : Node → Except SearchError (List Route)
  | .mk _ _ none => .ok []
  | .mk airport _ (some prevNode) =>
      match routes.find? (fun r => r.source.id == prevNode.airport.id && r.destination.id == airport.id) with
      | none => .error (.routeNotFound prevNode.airport.id airport.id)
      | some r =>
          match buildRoute routes prevNode with
          | .error e => .error e
          | .ok rest => .ok (rest ++ [r])

/-- Body of the `for (const route of routes)` loop, lines 103-124: if the
route leaves the current node's airport, find the adjacent node in the working
list by airport id; when absent, push a fresh `Infinity` node and only treat it
as the relaxation target if `currentNode.distanceFromSource + route.distance <
maxDistance` (the function's only use of its third parameter); then relax. -/
def exploreRoute (maxDistance : ℚ) (currentNode : Node) (nodes : List Node) (route : Route) : List Node :=
  if route.source.id == currentNode.airport.id then
    let adjacentAirport := route.destination
    match nodes.find? (fun node => node.airport.id == adjacentAirport.id) with
    | some adjacentNode =>
        let newDistanceFromSource := currentNode.distanceFromSource + (route.distance : WithTop ℚ)
        if newDistanceFromSource < adjacentNode.distanceFromSource then
          updateFirst (fun node => node.airport.id == adjacentAirport.id)
            (fun node => .mk node.airport newDistanceFromSource (some currentNode)) nodes
        else nodes
    | none =>
        let newAdjacentNode := Node.mk adjacentAirport ⊤ none
        let nodes' := nodes ++ [newAdjacentNode]
        if currentNode.distanceFromSource + (route.distance : WithTop ℚ) < (maxDistance : WithTop ℚ) then
          let newDistanceFromSource := currentNode.distanceFromSource + (route.distance : WithTop ℚ)
          if newDistanceFromSource < newAdjacentNode.distanceFromSource then
            updateFirst (fun node => node.airport.id == adjacentAirport.id)
              (fun node => .mk node.airport newDistanceFromSource (some currentNode)) nodes'
          else nodes'
        else nodes'
  else nodes

/-- The `while (nodes.length > 0)` loop, lines 78-125, with explicit fuel
(`none` means the loop has not finished within `fuel` iterations).  When the
list empties, line 127 throws `No route found` — embedded as an error value.
One iteration: pick the minimum-distance node (line 80); if it is the
destination, reconstruct and return (lines 83-97); otherwise remove it (line
101, `splice(indexOf(currentNode), 1)`, i.e. erase the first equal element),
append it to `visitedNodes` (line 102) and fold the route-exploration body
over all routes (lines 103-124). -/
def searchLoop (routes : List Route) (destinationAirport : Airport) (maxDistance : ℚ) :
    ℕ → List Node → List Node → Option (Except SearchError (List Route))
  | 0, _, _ => none
  | _ + 1, [], _ => some (.error .noRouteFound)
  | fuel + 1, n :: ns, visitedNodes =>
      let currentNode := minNode n ns
      if currentNode.airport.id == destinationAirport.id then
        some (buildRoute routes currentNode)
      else
        let nodes₁ := (n :: ns).erase currentNode
        let visitedNodes₁ := visitedNodes ++ [currentNode]
        let nodes₂ := routes.foldl (exploreRoute maxDistance currentNode) nodes₁
        searchLoop routes destinationAirport maxDistance fuel nodes₂ visitedNodes₁

/-- Lines 71-75: the initial node list, one node per airport, distance `0`
for nodes whose airport id equals the source id and `Infinity` otherwise, all
with a null back-pointer. -/
def initialNodes (airports : List Airport) (sourceAirport : Airport) : List Node :=
  airports.map (fun airport =>
    Node.mk airport (if airport.id == sourceAirport.id then (0 : WithTop ℚ) else ⊤) none)

/-- Lines 70-128: `findShortestRoute(sourceAirport, destinationAirport,
maxDistance)`. -/
def findShortestRoute (airports : List Airport) (routes : List Route)
    (sourceAirport destinationAirport : Airport) (maxDistance : ℚ) (fuel : ℕ) :
    Option (Except SearchError (List Route)) :=
  searchLoop routes destinationAirport maxDistance fuel (initialNodes airports sourceAirport) []

/-- Line 58: the handler's `const maxStops = 3`, passed as the third argument
of `findShortestRoute` (whose parameter is named `maxDistance`). -/
def maxStops : ℚ := 3

/-- Line 51 (the `/routes-test/:source` handler): all routes leaving the given
airport, by id. -/
def outboundRoutes (routes : List Route) (sourceAirport : Airport) : List Route :=
  routes.filter (fun route => route.source.id == sourceAirport.id)

/-- Line 131: `shortestRoute.reduce((sum, route) => sum + route.distance, 0)`. -/
def totalDistance (shortestRoute : List Route) : ℚ :=
  shortestRoute.foldl (fun sum route => sum + route.distance) 0

/-- Shape of the JSON body sent on line 135-140 of the `/routes` handler. -/
structure RouteResponse where
  source : Option String
  destination : Option String
  distance : ℚ
  hops : List (Option String)
deriving DecidableEq

/-- Lines 131-140: compute the total distance, map each route to its source
IATA code, then push `shortestRoute[shortestRoute.length - 1].destination.iata`.
On the empty list, `shortestRoute[-1]` is `undefined` in JS and reading its
`.destination` throws a `TypeError`; that failure is the `none` result here.
(`airport.iata || airport.icao` is embedded as `Option` choice; the JS
falsiness of the empty string is not modelled, as no claim depends on it.) -/
def formatResponse (sourceAirport destinationAirport : Airport)
    (shortestRoute : List Route) : Option RouteResponse :=
  let distance := totalDistance shortestRoute
  let hops := shortestRoute.map (fun route => route.source.iata)
  match shortestRoute.get? (shortestRoute.length - 1) with
  | none => none
  | some lastRoute =>
      some { source := sourceAirport.iata.orElse (fun _ => sourceAirport.icao)
             destination := destinationAirport.iata.orElse (fun _ => destinationAirport.icao)
             distance := distance
             hops := hops ++ [lastRoute.destination.iata] }

/-- Observable outcome of one `/routes/:source/:destination` request after the
airport codes have been resolved (lines 130-140): either a 200 response, or an
exception escaping the handler — thrown by `findShortestRoute` itself
(`searchFault`) or by the formatting code reading `.destination` of
`undefined` (`formatFault`). -/
inductive HandlerOutcome where
  | response (r : RouteResponse)
  | searchFault (e : SearchError)
  | formatFault
deriving DecidableEq

/-- Lines 130-140 of the handler, fuel-indexed like the search itself. -/
def routesHandler (airports : List Airport) (routes : List Route)
    (sourceAirport destinationAirport : Airport) (fuel : ℕ) : Option HandlerOutcome :=
  match findShortestRoute airports routes sourceAirport destinationAirport maxStops fuel with
  | none => none
  | some (.error e) => some (.searchFault e)
  | some (.ok shortestRoute) =>
      match formatResponse sourceAirport destinationAirport shortestRoute with
      | none => some .formatFault
      | some r => some (.response r)

/-!
Specification-side notions used to state the claims: what it means for a list
of routes to be an itinerary of the graph, and bounded reachability / best
bounded distance, both written from the spec's data-model section (an ordered
sequence of routes where each route's source equals the previous route's
destination, starting at the queried source and ending at the queried
destination; a hop is one traversed route).
-/

/-- `chainIds s rs d` holds when `rs` links airport id `s` to airport id `d`:
the first route leaves `s`, each route leaves the airport the previous one
reached, and the last route reaches `d`.  The empty chain links `s` to itself. -/
def chainIds (sourceId : ℕ) : List Route → ℕ → Bool
  | [], destinationId => sourceId == destinationId
  | r :: rs, destinationId => r.source.id == sourceId && chainIds r.destination.id rs destinationId

/-- An itinerary of the graph from `s` to `d`: a chain all of whose routes are
edges of the graph. -/
def isItinerary (routes : List Route) (sourceAirport destinationAirport : Airport)
    (itinerary : List Route) : Bool :=
  itinerary.all (fun r => routes.contains r) &&
    chainIds sourceAirport.id itinerary destinationAirport.id

/-- Decides whether some itinerary of at most `k` hops links the two ids. -/
def reachableWithin (routes : List Route) (sourceId destinationId : ℕ) : ℕ → Bool
  | 0 => sourceId == destinationId
  | k + 1 => sourceId == destinationId ||
      routes.any (fun r => r.source.id == sourceId && reachableWithin routes r.destination.id destinationId k)

/-- Least total distance of an itinerary of at most `k` hops linking the two
ids (`⊤` when none exists). -/
def minDistWithin (routes : List Route) (sourceId destinationId : ℕ) : ℕ → WithTop ℚ
  | 0 => if sourceId == destinationId then 0 else ⊤
  | k + 1 =>
      routes.foldl
        (fun acc r => if r.source.id == sourceId then
            min acc ((r.distance : WithTop ℚ) + minDistWithin routes r.destination.id destinationId k)
          else acc)
        (if sourceId == destinationId then 0 else ⊤)

/-!
General lemmas about the search loop.
-/

theorem minNode_cons_lt {m n : Node} (ms : List Node)
    (hc : m.distanceFromSource < n.distanceFromSource) : minNode n (m :: ms) = minNode m ms := by
  simp only [minNode, List.foldl_cons, if_pos hc]

theorem minNode_cons_ge {m n : Node} (ms : List Node)
    (hc : ¬ m.distanceFromSource < n.distanceFromSource) : minNode n (m :: ms) = minNode n ms := by
  simp only [minNode, List.foldl_cons, if_neg hc]

theorem minNode_mem : ∀ (ns : List Node) (n : Node), minNode n ns ∈ n :: ns
  | [], n => by simp [minNode]
  | m :: ms, n => by
      by_cases hc : m.distanceFromSource < n.distanceFromSource
      · rw [minNode_cons_lt ms hc]
        rcases List.mem_cons.mp (minNode_mem ms m) with h | h
        · rw [h]
          exact List.mem_cons_of_mem _ (List.mem_cons_self _ _)
        · exact List.mem_cons_of_mem _ (List.mem_cons_of_mem _ h)
      · rw [minNode_cons_ge ms hc]
        rcases List.mem_cons.mp (minNode_mem ms n) with h | h
        · rw [h]
          exact List.mem_cons_self _ _
        · exact List.mem_cons_of_mem _ (List.mem_cons_of_mem _ h)

theorem minNode_le : ∀ (ns : List Node) (n : Node), ∀ x ∈ n :: ns,
    (minNode n ns).distanceFromSource ≤ x.distanceFromSource
  | [], n => by
      intro x hx
      rcases List.mem_cons.mp hx with h | h
      · subst h
        simp [minNode]
      · simp at h
  | m :: ms, n => by
      intro x hx
      by_cases hc : m.distanceFromSource < n.distanceFromSource
      · rw [minNode_cons_lt ms hc]
        rcases List.mem_cons.mp hx with h | h
        · rw [h]
          exact le_trans (minNode_le ms m _ (List.mem_cons_self _ _)) (le_of_lt hc)
        · exact minNode_le ms m x h
      · rw [minNode_cons_ge ms hc]
        rcases List.mem_cons.mp hx with h | h
        · rw [h]
          exact minNode_le ms n _ (List.mem_cons_self _ _)
        · rcases List.mem_cons.mp h with h2 | h2
          · rw [h2]
            exact le_trans (minNode_le ms n _ (List.mem_cons_self _ _)) (le_of_not_lt hc)
          · exact minNode_le ms n x (List.mem_cons_of_mem _ h2)

/-- Invariant of every node value the search ever creates: a node with a null
back-pointer and a finite distance is a seed node of the source airport, and a
back-pointer always targets a node of finite distance satisfying the same
invariant (the JS code only ever sets `previousNode` to the just-extracted
`currentNode`, and relaxation requires `currentNode.distanceFromSource +
route.distance` to be below something, hence finite). -/
def GoodNode (sourceId : ℕ) : Node → Prop
  | .mk a d none => d ≠ ⊤ → a.id = sourceId
  | .mk _ _ (some p) => p.distanceFromSource ≠ ⊤ ∧ GoodNode sourceId p

theorem updateFirst_allP (P : Node → Prop) (p : Node → Bool) (f : Node → Node) :
    ∀ l : List Node, (∀ x ∈ l, P x) → (∀ x ∈ l, P (f x)) →
      ∀ y ∈ updateFirst p f l, P y
  | [] => by simp [updateFirst]
  | x :: xs => by
      intro h1 h2 y hy
      simp only [updateFirst] at hy
      by_cases hp : p x
      · rw [if_pos hp] at hy
        rcases List.mem_cons.mp hy with h | h
        · rw [h]
          exact h2 x (List.mem_cons_self _ _)
        · exact h1 y (List.mem_cons_of_mem _ h)
      · rw [if_neg hp] at hy
        rcases List.mem_cons.mp hy with h | h
        · rw [h]
          exact h1 x (List.mem_cons_self _ _)
        · exact updateFirst_allP P p f xs (fun z hz => h1 z (List.mem_cons_of_mem _ hz))
            (fun z hz => h2 z (List.mem_cons_of_mem _ hz)) y h

theorem updateFirst_exists_id (p : Node → Bool) (f : Node → Node)
    (hf : ∀ x, (f x).airport = x.airport) (i : ℕ) :
    ∀ l : List Node, (∃ x ∈ l, x.airport.id = i) →
      ∃ y ∈ updateFirst p f l, y.airport.id = i
  | [] => by simp
  | x :: xs => by
      intro hex
      simp only [updateFirst]
      by_cases hp : p x
      · rw [if_pos hp]
        rcases hex with ⟨z, hz, hzi⟩
        rcases List.mem_cons.mp hz with h | h
        · refine ⟨f x, List.mem_cons_self _ _, ?_⟩
          rw [hf x, ← h, hzi]
        · exact ⟨z, List.mem_cons_of_mem _ h, hzi⟩
      · rw [if_neg hp]
        rcases hex with ⟨z, hz, hzi⟩
        rcases List.mem_cons.mp hz with h | h
        · exact ⟨x, List.mem_cons_self _ _, by rw [← h]; exact hzi⟩
        · rcases updateFirst_exists_id p f hf i xs ⟨z, h, hzi⟩ with ⟨y, hy, hyi⟩
          exact ⟨y, List.mem_cons_of_mem _ hy, hyi⟩

/-- A sum with a (finite) route distance that is below anything is itself
finite in its first summand. -/
theorem left_ne_top_of_add_lt {a b : WithTop ℚ} {w : ℚ}
    (h : a + (w : WithTop ℚ) < b) : a ≠ ⊤ := by
  intro ha
  rw [ha, top_add] at h
  exact not_top_lt h

theorem exploreRoute_allGood (maxDistance : ℚ) (currentNode : Node) (route : Route) (sourceId : ℕ)
    (hc : GoodNode sourceId currentNode) (nodes : List Node)
    (hall : ∀ x ∈ nodes, GoodNode sourceId x) :
    ∀ y ∈ exploreRoute maxDistance currentNode nodes route, GoodNode sourceId y := by
  intro y hy
  simp only [exploreRoute] at hy
  by_cases hg : (route.source.id == currentNode.airport.id) = true
  · rw [if_pos hg] at hy
    cases hfind : List.find? (fun node => node.airport.id == route.destination.id) nodes with
    | some adjacentNode =>
        rw [hfind] at hy
        simp only at hy
        by_cases hlt : currentNode.distanceFromSource + (route.distance : WithTop ℚ) <
            adjacentNode.distanceFromSource
        · rw [if_pos hlt] at hy
          refine updateFirst_allP _ _ _ nodes hall ?_ y hy
          intro x _
          exact ⟨left_ne_top_of_add_lt hlt, hc⟩
        · rw [if_neg hlt] at hy
          exact hall y hy
    | none =>
        rw [hfind] at hy
        simp only at hy
        have hfresh : ∀ x ∈ nodes ++ [Node.mk route.destination ⊤ none], GoodNode sourceId x := by
          intro x hx
          rcases List.mem_append.mp hx with h | h
          · exact hall x h
          · rcases List.mem_singleton.mp h with rfl
            intro hne
            exact absurd rfl hne
        by_cases hmax : currentNode.distanceFromSource + (route.distance : WithTop ℚ) <
            ((maxDistance : ℚ) : WithTop ℚ)
        · rw [if_pos hmax] at hy
          by_cases hlt : currentNode.distanceFromSource + (route.distance : WithTop ℚ) <
              (Node.mk route.destination ⊤ none).distanceFromSource
          · rw [if_pos hlt] at hy
            refine updateFirst_allP _ _ _ _ hfresh ?_ y hy
            intro x _
            exact ⟨left_ne_top_of_add_lt hmax, hc⟩
          · rw [if_neg hlt] at hy
            exact hfresh y hy
        · rw [if_neg hmax] at hy
          exact hfresh y hy
  · rw [if_neg hg] at hy
    exact hall y hy

theorem exploreRoute_exists_id (maxDistance : ℚ) (currentNode : Node) (route : Route) (i : ℕ)
    (nodes : List Node) (hex : ∃ x ∈ nodes, x.airport.id = i) :
    ∃ y ∈ exploreRoute maxDistance currentNode nodes route, y.airport.id = i := by
  have hairport : ∀ x : Node,
      ((fun node => Node.mk node.airport
        (currentNode.distanceFromSource + (route.distance : WithTop ℚ)) (some currentNode)) x).airport
        = x.airport := fun x => rfl
  have happend : ∃ x ∈ nodes ++ [Node.mk route.destination ⊤ none], x.airport.id = i := by
    rcases hex with ⟨x, hx, hxi⟩
    exact ⟨x, List.mem_append.mpr (Or.inl hx), hxi⟩
  simp only [exploreRoute]
  by_cases hg : (route.source.id == currentNode.airport.id) = true
  · rw [if_pos hg]
    cases hfind : List.find? (fun node => node.airport.id == route.destination.id) nodes with
    | some adjacentNode =>
        simp only
        by_cases hlt : currentNode.distanceFromSource + (route.distance : WithTop ℚ) <
            adjacentNode.distanceFromSource
        · rw [if_pos hlt]
          exact updateFirst_exists_id _ _ hairport i nodes hex
        · rw [if_neg hlt]
          exact hex
    | none =>
        simp only
        by_cases hmax : currentNode.distanceFromSource + (route.distance : WithTop ℚ) <
            ((maxDistance : ℚ) : WithTop ℚ)
        · rw [if_pos hmax]
          by_cases hlt : currentNode.distanceFromSource + (route.distance : WithTop ℚ) <
              (Node.mk route.destination ⊤ none).distanceFromSource
          · rw [if_pos hlt]
            exact updateFirst_exists_id _ _ hairport i _ happend
          · rw [if_neg hlt]
            exact happend
        · rw [if_neg hmax]
          exact happend
  · rw [if_neg hg]
    exact hex

theorem foldl_exploreRoute_allGood (maxDistance : ℚ) (currentNode : Node) (sourceId : ℕ)
    (hc : GoodNode sourceId currentNode) :
    ∀ (rs : List Route) (nodes : List Node), (∀ x ∈ nodes, GoodNode sourceId x) →
      ∀ y ∈ rs.foldl (exploreRoute maxDistance currentNode) nodes, GoodNode sourceId y
  | [], nodes => by
      intro hall y hy
      simpa using hall y hy
  | r :: rs, nodes => by
      intro hall y hy
      simp only [List.foldl_cons] at hy
      exact foldl_exploreRoute_allGood maxDistance currentNode sourceId hc rs _
        (exploreRoute_allGood maxDistance currentNode r sourceId hc nodes hall) y hy

theorem foldl_exploreRoute_exists_id (maxDistance : ℚ) (currentNode : Node) (i : ℕ) :
    ∀ (rs : List Route) (nodes : List Node), (∃ x ∈ nodes, x.airport.id = i) →
      ∃ y ∈ rs.foldl (exploreRoute maxDistance currentNode) nodes, y.airport.id = i
  | [], nodes => by
      intro hex
      simpa using hex
  | r :: rs, nodes => by
      intro hex
      simp only [List.foldl_cons]
      exact foldl_exploreRoute_exists_id maxDistance currentNode i rs _
        (exploreRoute_exists_id maxDistance currentNode r i nodes hex)

theorem chainIds_append (r : Route) :
    ∀ (rs : List Route) (s m : ℕ), chainIds s rs m = true → r.source.id = m →
      chainIds s (rs ++ [r]) r.destination.id = true
  | [], s, m => by
      intro h1 h2
      simp only [chainIds, beq_iff_eq] at h1
      simp only [List.nil_append, chainIds, Bool.and_eq_true, beq_iff_eq]
      exact ⟨by rw [h2, h1], trivial⟩
  | r' :: rs, s, m => by
      intro h1 h2
      simp only [chainIds, Bool.and_eq_true] at h1
      simp only [List.cons_append, chainIds, Bool.and_eq_true]
      exact ⟨h1.1, chainIds_append r rs _ m h1.2 h2⟩

theorem buildRoute_ne_noRouteFound (routes : List Route) :
    ∀ n : Node, buildRoute routes n ≠ .error .noRouteFound
  | .mk a d none => by simp [buildRoute]
  | .mk a d (some p) => by
      simp only [buildRoute]
      cases hfind : List.find?
          (fun r => r.source.id == p.airport.id && r.destination.id == a.id) routes with
      | none => simp
      | some r =>
          simp only
          cases hrec : buildRoute routes p with
          | error e =>
              have hne := buildRoute_ne_noRouteFound routes p
              rw [hrec] at hne
              simpa using hne
          | ok rest => simp

theorem buildRoute_chain (routes : List Route) (sourceId : ℕ) :
    ∀ (n : Node) (rs : List Route), GoodNode sourceId n → buildRoute routes n = .ok rs →
      (rs = [] ∧ (n.distanceFromSource ≠ ⊤ → n.airport.id = sourceId)) ∨
      (rs ≠ [] ∧ chainIds sourceId rs n.airport.id = true)
  | .mk a d none, rs => by
      intro hg hb
      simp only [buildRoute, Except.ok.injEq] at hb
      subst hb
      exact Or.inl ⟨rfl, hg⟩
  | .mk a d (some p), rs => by
      intro hg hb
      obtain ⟨hpfin, hpg⟩ : p.distanceFromSource ≠ ⊤ ∧ GoodNode sourceId p := hg
      simp only [buildRoute] at hb
      cases hfind : List.find?
          (fun r => r.source.id == p.airport.id && r.destination.id == a.id) routes with
      | none =>
          rw [hfind] at hb
          simp at hb
      | some r =>
          rw [hfind] at hb
          simp only at hb
          cases hrec : buildRoute routes p with
          | error e =>
              rw [hrec] at hb
              simp at hb
          | ok rest =>
              rw [hrec] at hb
              simp only [Except.ok.injEq] at hb
              subst hb
              have hfp := List.find?_some hfind
              simp only [Bool.and_eq_true, beq_iff_eq] at hfp
              obtain ⟨hrs, hrd⟩ := hfp
              rcases buildRoute_chain routes sourceId p rest hpg hrec with
                ⟨hrest, himp⟩ | ⟨hne, hchain⟩
              · subst hrest
                refine Or.inr ⟨by simp, ?_⟩
                simp only [List.nil_append, chainIds, Bool.and_eq_true, beq_iff_eq, Node.airport]
                exact ⟨by rw [hrs, himp hpfin], hrd⟩
              · refine Or.inr ⟨by simp, ?_⟩
                have := chainIds_append r rest sourceId p.airport.id hchain hrs
                rw [hrd] at this
                exact this

theorem searchLoop_ne_noRouteFound (routes : List Route) (destinationAirport : Airport)
    (maxDistance : ℚ) :
    ∀ (fuel : ℕ) (nodes visitedNodes : List Node),
      (∃ x ∈ nodes, x.airport.id = destinationAirport.id) →
      searchLoop routes destinationAirport maxDistance fuel nodes visitedNodes ≠
        some (.error .noRouteFound)
  | 0, nodes, visitedNodes => by simp [searchLoop]
  | fuel + 1, [], visitedNodes => by
      intro hex
      simp at hex
  | fuel + 1, n :: ns, visitedNodes => by
      intro hex
      simp only [searchLoop]
      by_cases hdest : ((minNode n ns).airport.id == destinationAirport.id) = true
      · rw [if_pos hdest]
        intro h
        rw [Option.some.injEq] at h
        exact buildRoute_ne_noRouteFound routes (minNode n ns) h
      · rw [if_neg hdest]
        apply searchLoop_ne_noRouteFound routes destinationAirport maxDistance fuel
        apply foldl_exploreRoute_exists_id
        rcases hex with ⟨x, hx, hxi⟩
        refine ⟨x, ?_, hxi⟩
        rw [List.mem_erase_of_ne]
        · exact hx
        · intro hxeq
          apply hdest
          rw [beq_iff_eq, ← hxeq]
          exact hxi

theorem searchLoop_chain (routes : List Route) (destinationAirport : Airport)
    (maxDistance : ℚ) (sourceId : ℕ) :
    ∀ (fuel : ℕ) (nodes visitedNodes : List Node) (rs : List Route),
      (∀ x ∈ nodes, GoodNode sourceId x) →
      searchLoop routes destinationAirport maxDistance fuel nodes visitedNodes = some (.ok rs) →
      rs ≠ [] → chainIds sourceId rs destinationAirport.id = true
  | 0, nodes, visitedNodes, rs => by simp [searchLoop]
  | fuel + 1, [], visitedNodes, rs => by
      intro hall hb
      simp [searchLoop] at hb
  | fuel + 1, n :: ns, visitedNodes, rs => by
      intro hall hb hne
      simp only [searchLoop] at hb
      by_cases hdest : ((minNode n ns).airport.id == destinationAirport.id) = true
      · rw [if_pos hdest, Option.some.injEq] at hb
        have hgood : GoodNode sourceId (minNode n ns) := hall _ (minNode_mem ns n)
        rcases buildRoute_chain routes sourceId (minNode n ns) rs hgood hb with
          ⟨hnil, _⟩ | ⟨_, hchain⟩
        · exact absurd hnil hne
        · rw [beq_iff_eq] at hdest
          rw [← hdest]
          exact hchain
      · rw [if_neg hdest] at hb
        refine searchLoop_chain routes destinationAirport maxDistance sourceId fuel _ _ rs
          ?_ hb hne
        apply foldl_exploreRoute_allGood _ _ _ (hall _ (minNode_mem ns n))
        intro x hx
        exact hall x (List.mem_of_mem_erase hx)

theorem initialNodes_allGood (airports : List Airport) (sourceAirport : Airport) :
    ∀ x ∈ initialNodes airports sourceAirport, GoodNode sourceAirport.id x := by
  intro x hx
  rcases List.mem_map.mp hx with ⟨a, _, rfl⟩
  intro hfin
  by_cases hid : (a.id == sourceAirport.id) = true
  · exact beq_iff_eq.mp hid
  · rw [if_neg hid] at hfin
    exact absurd rfl hfin

theorem initialNodes_exists_id (airports : List Airport) (sourceAirport : Airport) (i : ℕ)
    (hex : ∃ a ∈ airports, a.id = i) :
    ∃ x ∈ initialNodes airports sourceAirport, x.airport.id = i := by
  rcases hex with ⟨a, ha, hai⟩
  exact ⟨Node.mk a (if a.id == sourceAirport.id then (0 : WithTop ℚ) else ⊤) none,
    List.mem_map.mpr ⟨a, ha, rfl⟩, hai⟩

/-- As long as the destination airport's id occurs among the airports, the
search can never produce the `No route found` outcome: the destination's node
stays in the working list (only the extracted minimum is removed, and it is
returned from, not discarded, when it is the destination), so the `while` loop
never exhausts it. -/
theorem findShortestRoute_ne_noRouteFound (airports : List Airport) (routes : List Route)
    (sourceAirport destinationAirport : Airport) (maxDistance : ℚ) (fuel : ℕ)
    (hdest : ∃ a ∈ airports, a.id = destinationAirport.id) :
    findShortestRoute airports routes sourceAirport destinationAirport maxDistance fuel ≠
      some (.error .noRouteFound) := by
  unfold findShortestRoute
  exact searchLoop_ne_noRouteFound routes destinationAirport maxDistance fuel _ _
    (initialNodes_exists_id airports sourceAirport _ hdest)

/-- Any non-empty route list the search returns is a chain of routes from the
source airport's id to the destination airport's id. -/
theorem findShortestRoute_chain (airports : List Airport) (routes : List Route)
    (sourceAirport destinationAirport : Airport) (maxDistance : ℚ) (fuel : ℕ)
    (rs : List Route)
    (hret : findShortestRoute airports routes sourceAirport destinationAirport maxDistance fuel =
      some (.ok rs)) (hne : rs ≠ []) :
    chainIds sourceAirport.id rs destinationAirport.id = true := by
  unfold findShortestRoute at hret
  exact searchLoop_chain routes destinationAirport maxDistance sourceAirport.id fuel _ _ rs
    (initialNodes_allGood airports sourceAirport) hret hne

/-- When the queried source and destination ids coincide and the source is in
the airport list, the very first loop iteration extracts a distance-`0` node
(every other node starts at `Infinity`), whose airport id necessarily equals
the source id; the destination check fires at once and the null back-pointer
yields the empty route list. -/
theorem findShortestRoute_sourceEqDestination (airports : List Airport) (routes : List Route)
    (sourceAirport destinationAirport : Airport) (maxDistance : ℚ) (fuel : ℕ)
    (hsrc : ∃ a ∈ airports, a.id = sourceAirport.id)
    (heq : sourceAirport.id = destinationAirport.id) :
    findShortestRoute airports routes sourceAirport destinationAirport maxDistance (fuel + 1) =
      some (.ok []) := by
  cases airports with
  | nil => simp at hsrc
  | cons a as =>
      unfold findShortestRoute
      have hcons : initialNodes (a :: as) sourceAirport =
          Node.mk a (if a.id == sourceAirport.id then (0 : WithTop ℚ) else ⊤) none ::
            initialNodes as sourceAirport := by
        simp [initialNodes]
      rw [hcons]
      simp only [searchLoop]
      have hmem := minNode_mem (initialNodes as sourceAirport)
        (Node.mk a (if a.id == sourceAirport.id then (0 : WithTop ℚ) else ⊤) none)
      rw [← hcons] at hmem
      rcases List.mem_map.mp hmem with ⟨b, _, hfb⟩
      rcases hsrc with ⟨a₀, ha₀, ha₀id⟩
      have h₀mem : Node.mk a₀ (if a₀.id == sourceAirport.id then (0 : WithTop ℚ) else ⊤) none ∈
          initialNodes (a :: as) sourceAirport := List.mem_map.mpr ⟨a₀, ha₀, rfl⟩
      rw [hcons] at h₀mem
      have hle := minNode_le (initialNodes as sourceAirport)
        (Node.mk a (if a.id == sourceAirport.id then (0 : WithTop ℚ) else ⊤) none) _ h₀mem
      rw [if_pos (beq_iff_eq.mpr ha₀id)] at hle
      have hbid : (b.id == sourceAirport.id) = true := by
        by_contra hno
        rw [← hfb, if_neg hno] at hle
        simp [Node.distanceFromSource] at hle
      have hguard : ((minNode
          (Node.mk a (if a.id == sourceAirport.id then (0 : WithTop ℚ) else ⊤) none)
          (initialNodes as sourceAirport)).airport.id == destinationAirport.id) = true := by
        rw [← hfb]
        simp only [Node.airport, beq_iff_eq]
        rw [beq_iff_eq.mp hbid, heq]
      rw [if_pos hguard, ← hfb]
      simp [buildRoute]

theorem totalDistance_cons (r : Route) :
    ∀ rest : List Route, totalDistance (r :: rest) = r.distance + totalDistance rest := by
  have hshift : ∀ (l : List Route) (a : ℚ),
      l.foldl (fun sum route => sum + route.distance) a =
        a + l.foldl (fun sum route => sum + route.distance) 0 := by
    intro l
    induction l with
    | nil => intro a; simp
    | cons x xs ih =>
        intro a
        simp only [List.foldl_cons]
        rw [ih (a + x.distance), ih (0 + x.distance), zero_add, add_assoc]
  intro rest
  simp only [totalDistance, List.foldl_cons, zero_add]
  exact hshift rest r.distance

/-- `reachableWithin` decides precisely the existence of an itinerary chain of
bounded hop count built from the graph's routes. -/
theorem reachableWithin_iff (routes : List Route) :
    ∀ (k : ℕ) (sourceId destinationId : ℕ),
      reachableWithin routes sourceId destinationId k = true ↔
        ∃ itinerary : List Route, (∀ r ∈ itinerary, r ∈ routes) ∧
          chainIds sourceId itinerary destinationId = true ∧ itinerary.length ≤ k
  | 0, s, d => by
      constructor
      · intro h
        exact ⟨[], by simp, h, le_refl 0⟩
      · rintro ⟨iti, _, hchain, hlen⟩
        rw [List.length_eq_zero.mp (Nat.le_zero.mp hlen)] at hchain
        exact hchain
  | k + 1, s, d => by
      constructor
      · intro h
        simp only [reachableWithin, Bool.or_eq_true, List.any_eq_true, Bool.and_eq_true] at h
        rcases h with h | ⟨r, hr, hrs, hreach⟩
        · exact ⟨[], by simp, h, by simp⟩
        · rcases (reachableWithin_iff routes k r.destination.id d).mp hreach with
            ⟨iti, hmem, hchain, hlen⟩
          refine ⟨r :: iti, ?_, ?_, ?_⟩
          · intro x hx
            rcases List.mem_cons.mp hx with rfl | hx
            · exact hr
            · exact hmem x hx
          · simp only [chainIds, Bool.and_eq_true]
            exact ⟨hrs, hchain⟩
          · simpa using Nat.succ_le_succ hlen
      · rintro ⟨iti, hmem, hchain, hlen⟩
        simp only [reachableWithin, Bool.or_eq_true, List.any_eq_true, Bool.and_eq_true]
        cases iti with
        | nil => exact Or.inl hchain
        | cons r rest =>
            simp only [chainIds, Bool.and_eq_true] at hchain
            refine Or.inr ⟨r, hmem r (List.mem_cons_self _ _), hchain.1, ?_⟩
            refine (reachableWithin_iff routes k r.destination.id d).mpr
              ⟨rest, fun x hx => hmem x (List.mem_cons_of_mem _ hx), hchain.2, ?_⟩
            simpa using Nat.succ_le_succ_iff.mp (by simpa using hlen)

theorem foldl_min_le_init (s : ℕ) (v : Route → WithTop ℚ) :
    ∀ (l : List Route) (acc : WithTop ℚ),
      l.foldl (fun acc r => if r.source.id == s then min acc (v r) else acc) acc ≤ acc
  | [], acc => le_refl acc
  | r :: rs, acc => by
      simp only [List.foldl_cons]
      by_cases hr : (r.source.id == s) = true
      · rw [if_pos hr]
        exact le_trans (foldl_min_le_init s v rs _) (min_le_left _ _)
      · rw [if_neg hr]
        exact foldl_min_le_init s v rs acc

theorem foldl_min_le_mem (s : ℕ) (v : Route → WithTop ℚ) :
    ∀ (l : List Route) (acc : WithTop ℚ) (r : Route), r ∈ l → (r.source.id == s) = true →
      l.foldl (fun acc r => if r.source.id == s then min acc (v r) else acc) acc ≤ v r
  | [], acc, r => by
      intro h
      simp at h
  | x :: xs, acc, r => by
      intro hmem hrs
      simp only [List.foldl_cons]
      rcases List.mem_cons.mp hmem with rfl | hmem
      · rw [if_pos hrs]
        exact le_trans (foldl_min_le_init s v xs _) (min_le_right _ _)
      · exact foldl_min_le_mem s v xs _ r hmem hrs

/-- Every itinerary of at most `k` hops from `s` to `d` has total distance at
least `minDistWithin routes s d k`. -/
theorem minDistWithin_le (routes : List Route) :
    ∀ (k : ℕ) (sourceId destinationId : ℕ) (itinerary : List Route),
      (∀ r ∈ itinerary, r ∈ routes) → chainIds sourceId itinerary destinationId = true →
      itinerary.length ≤ k →
      minDistWithin routes sourceId destinationId k ≤ ((totalDistance itinerary : ℚ) : WithTop ℚ)
  | 0, s, d, iti => by
      intro hmem hchain hlen
      rw [List.length_eq_zero.mp (Nat.le_zero.mp hlen)] at hchain ⊢
      simp only [chainIds] at hchain
      simp [minDistWithin, hchain, totalDistance]
  | k + 1, s, d, iti => by
      intro hmem hchain hlen
      cases iti with
      | nil =>
          simp only [chainIds] at hchain
          simp only [minDistWithin, hchain, if_pos]
          have := foldl_min_le_init s
            (fun r => (r.distance : WithTop ℚ) + minDistWithin routes r.destination.id d k)
            routes 0
          simpa [totalDistance] using this
      | cons r rest =>
          simp only [chainIds, Bool.and_eq_true] at hchain
          have hstep := foldl_min_le_mem s
            (fun r => (r.distance : WithTop ℚ) + minDistWithin routes r.destination.id d k)
            routes (if (s == d) = true then 0 else ⊤) r
            (hmem r (List.mem_cons_self _ _)) hchain.1
          have hrest := minDistWithin_le routes k r.destination.id d rest
            (fun x hx => hmem x (List.mem_cons_of_mem _ hx)) hchain.2
            (Nat.succ_le_succ_iff.mp (by simpa using hlen))
          calc minDistWithin routes s d (k + 1)
              ≤ (r.distance : WithTop ℚ) + minDistWithin routes r.destination.id d k := hstep
            _ ≤ (r.distance : WithTop ℚ) + ((totalDistance rest : ℚ) : WithTop ℚ) :=
                add_le_add_left hrest _
            _ = ((totalDistance (r :: rest) : ℚ) : WithTop ℚ) := by
                rw [totalDistance_cons, WithTop.coe_add]

/-!
Concrete graphs used to settle the claims: five airports with ids 0..4 and
small route sets.
-/

def airportA : Airport := { id := 0 }

def airportB : Airport := { id := 1 }

def airportC : Airport := { id := 2 }

def airportD : Airport := { id := 3 }

def airportE : Airport := { id := 4 }

/-- Graph with a zero-distance self-loop at the source (a self-loop route has
great-circle distance `0` by definition of the haversine formula) next to an
ordinary route to the destination. -/
def loopRoutes : List Route := [⟨airportA, airportA, 0⟩, ⟨airportA, airportB, 5⟩]

/-- Graph consisting only of the zero-distance self-loop at the source. -/
def selfLoopOnly : List Route := [⟨airportA, airportA, 0⟩]

/-- The seed node of the source airport. -/
def nodeA0 : Node := Node.mk airportA 0 none

/-- The node of airport B after the first iteration of the `loopRoutes`
search: distance `5`, reached from the source seed node. -/
def nodeB5 : Node := Node.mk airportB 5 (some nodeA0)

/-- The node of airport B in the `selfLoopOnly` search: never relaxed. -/
def nodeBInf : Node := Node.mk airportB ⊤ none

theorem beq_nodeB_nodeA (d₁ d₂ : WithTop ℚ) (q p : Option Node) :
    (Node.mk ⟨1, none, none⟩ d₁ (some (Node.mk ⟨0, none, none⟩ d₂ q)) ==
      Node.mk ⟨0, none, none⟩ 0 p) = false := by
  rw [Bool.eq_false_iff]
  intro h
  have := eq_of_beq h
  simp at this

theorem beq_nodeBInf_nodeA (d : WithTop ℚ) (p : Option Node) :
    (Node.mk ⟨1, none, none⟩ d none == Node.mk ⟨0, none, none⟩ 0 p) = false := by
  rw [Bool.eq_false_iff]
  intro h
  have := eq_of_beq h
  simp at this

theorem loopRoutes_step (fuel : ℕ) (p : Node) (v : List Node) :
    searchLoop loopRoutes airportB 3 (fuel + 1)
        [nodeB5, Node.mk airportA 0 (some p)] v =
      searchLoop loopRoutes airportB 3 fuel
        [nodeB5, Node.mk airportA 0 (some (Node.mk airportA 0 (some p)))]
        (v ++ [Node.mk airportA 0 (some p)]) := by
  norm_num +decide [searchLoop, minNode, exploreRoute, updateFirst, List.erase, List.find?,
    List.foldl, loopRoutes, airportA, airportB, nodeB5, nodeA0, Node.airport,
    Node.distanceFromSource, beq_self_eq_true', beq_nodeB_nodeA, ← WithTop.coe_add]
  simp +decide [searchLoop, minNode, exploreRoute, updateFirst, List.erase, List.find?,
    List.foldl, loopRoutes, airportA, airportB, nodeB5, nodeA0, Node.airport,
    Node.distanceFromSource, beq_self_eq_true', beq_nodeB_nodeA, ← WithTop.coe_add]

theorem loopRoutes_stuck : ∀ (fuel : ℕ) (p : Node) (v : List Node),
    searchLoop loopRoutes airportB 3 fuel [nodeB5, Node.mk airportA 0 (some p)] v = none
  | 0, p, v => rfl
  | fuel + 1, p, v => by
      rw [loopRoutes_step]
      exact loopRoutes_stuck fuel _ _

/-- On the graph with a zero-distance self-loop at the source, the search
never terminates: every iteration re-extracts the distance-`0` copy of the
source node, removes it, and pushes a fresh relaxed copy (the self-loop
re-adds the just-visited node, and `0 + 0 < 3` passes the `maxDistance`
check), so no amount of fuel completes the loop. -/
theorem findShortestRoute_loopRoutes_none : ∀ fuel : ℕ,
    findShortestRoute [airportA, airportB] loopRoutes airportA airportB 3 fuel = none
  | 0 => rfl
  | fuel + 1 => by
      have hfirst : findShortestRoute [airportA, airportB] loopRoutes airportA airportB 3
          (fuel + 1) =
          searchLoop loopRoutes airportB 3 fuel
            [nodeB5, Node.mk airportA 0 (some nodeA0)] [nodeA0] := by
        norm_num +decide [findShortestRoute, initialNodes, searchLoop, minNode, exploreRoute,
          updateFirst, List.erase, List.find?, List.foldl, loopRoutes, airportA, airportB,
          nodeB5, nodeA0, Node.airport, Node.distanceFromSource, beq_self_eq_true',
          beq_nodeBInf_nodeA, ← WithTop.coe_add]
      rw [hfirst]
      exact loopRoutes_stuck fuel nodeA0 _

theorem selfLoopOnly_step (fuel : ℕ) (p : Node) (v : List Node) :
    searchLoop selfLoopOnly airportB 3 (fuel + 1)
        [nodeBInf, Node.mk airportA 0 (some p)] v =
      searchLoop selfLoopOnly airportB 3 fuel
        [nodeBInf, Node.mk airportA 0 (some (Node.mk airportA 0 (some p)))]
        (v ++ [Node.mk airportA 0 (some p)]) := by
  norm_num +decide [searchLoop, minNode, exploreRoute, updateFirst, List.erase, List.find?,
    List.foldl, selfLoopOnly, airportA, airportB, nodeBInf, Node.airport,
    Node.distanceFromSource, beq_self_eq_true', beq_nodeBInf_nodeA, ← WithTop.coe_add]
  simp +decide [searchLoop, minNode, exploreRoute, updateFirst, List.erase, List.find?,
    List.foldl, selfLoopOnly, airportA, airportB, nodeBInf, Node.airport,
    Node.distanceFromSource, beq_self_eq_true', beq_nodeBInf_nodeA, ← WithTop.coe_add]

theorem selfLoopOnly_stuck : ∀ (fuel : ℕ) (p : Node) (v : List Node),
    searchLoop selfLoopOnly airportB 3 fuel [nodeBInf, Node.mk airportA 0 (some p)] v = none
  | 0, p, v => rfl
  | fuel + 1, p, v => by
      rw [selfLoopOnly_step]
      exact selfLoopOnly_stuck fuel _ _

/-- Same non-termination with the self-loop alone: a cycle (here a self-loop)
reachable from the source makes the `while` loop run forever. -/
theorem findShortestRoute_selfLoopOnly_none : ∀ fuel : ℕ,
    findShortestRoute [airportA, airportB] selfLoopOnly airportA airportB 3 fuel = none
  | 0 => rfl
  | fuel + 1 => by
      have hfirst : findShortestRoute [airportA, airportB] selfLoopOnly airportA airportB 3
          (fuel + 1) =
          searchLoop selfLoopOnly airportB 3 fuel
            [nodeBInf, Node.mk airportA 0 (some nodeA0)] [nodeA0] := by
        norm_num +decide [findShortestRoute, initialNodes, searchLoop, minNode, exploreRoute,
          updateFirst, List.erase, List.find?, List.foldl, selfLoopOnly, airportA, airportB,
          nodeBInf, nodeA0, Node.airport, Node.distanceFromSource, beq_self_eq_true',
          beq_nodeBInf_nodeA, ← WithTop.coe_add]
        simp
      rw [hfirst]
      exact selfLoopOnly_stuck fuel nodeA0 _

/-- A plain chain of four routes A→B→C→D→E, each of distance 5. -/
def chainFourRoutes : List Route :=
  [⟨airportA, airportB, 5⟩, ⟨airportB, airportC, 5⟩, ⟨airportC, airportD, 5⟩,
    ⟨airportD, airportE, 5⟩]

/-- Two parallel routes A→B with different distances. -/
def parallelRoutes : List Route := [⟨airportA, airportB, 100⟩, ⟨airportA, airportB, 10⟩]

/-- Graph with two equal-distance itineraries A⇝C: the 2-hop A→B→C (5+5) and
the 3-hop A→D→E→C (2+2+6). -/
def tieRoutes : List Route :=
  [⟨airportA, airportB, 5⟩, ⟨airportB, airportC, 5⟩, ⟨airportA, airportD, 2⟩,
    ⟨airportD, airportE, 2⟩, ⟨airportE, airportC, 6⟩]

/-- C1: the claim says every returned itinerary has hop count at most
`maxHops` (the policy value 3 passed as `maxStops`).  The code passes
`maxStops` into a parameter named `maxDistance` and only ever compares it
against cumulative distance (line 111), never against a hop count, so on a
plain four-edge chain the search returns a 4-hop itinerary: the hop bound is
violated.  This evaluates the code at that failing input. -/
theorem c1_hop_bound_violated :
    findShortestRoute [airportA, airportB, airportC, airportD, airportE] chainFourRoutes
        airportA airportE maxStops 12 = some (.ok chainFourRoutes) ∧
    chainFourRoutes.length = 4 ∧ maxStops = 3 := by
  refine ⟨?_, by simp [chainFourRoutes], rfl⟩
  norm_num +decide [findShortestRoute, initialNodes, searchLoop, minNode, exploreRoute,
    buildRoute, updateFirst, List.erase, List.find?, List.foldl, maxStops, chainFourRoutes,
    airportA, airportB, airportC, airportD, airportE, Node.airport, Node.distanceFromSource,
    beq_self_eq_true', ← WithTop.coe_add]

/-- C2 counterexample: on a graph where airport C is unreachable from A (the
only route is A→B), no itinerary from A to C within 3 hops exists
(`reachableWithin … = false`; by `reachableWithin_iff` that is exactly the
non-existence of a bounded itinerary), yet the query does NOT fail with
`NoRouteFound`: the destination node is eventually extracted at distance
`Infinity` with a null back-pointer and the function returns the empty route
list as a success. -/
theorem c2_no_route_counterexample :
    reachableWithin [⟨airportA, airportB, 5⟩] airportA.id airportC.id 3 = false ∧
    findShortestRoute [airportA, airportB, airportC] [⟨airportA, airportB, 5⟩]
        airportA airportC maxStops 10 = some (.ok []) := by
  refine ⟨by decide, ?_⟩
  norm_num +decide [findShortestRoute, initialNodes, searchLoop, minNode, exploreRoute,
    buildRoute, updateFirst, List.erase, List.find?, List.foldl, maxStops,
    airportA, airportB, airportC, Node.airport, Node.distanceFromSource,
    beq_self_eq_true', ← WithTop.coe_add]

/-- C2 amended: whenever the destination airport occurs in the airport list
(which the route handler guarantees, since it resolves the destination from
that very list), `findShortestRoute` can never deliver the `NoRouteFound`
outcome at all — the `throw` on line 127 is unreachable; an unreachable
destination yields the empty itinerary instead. -/
theorem c2_never_noRouteFound (airports : List Airport) (routes : List Route)
    (sourceAirport destinationAirport : Airport) (maxDistance : ℚ) (fuel : ℕ)
    (hdest : ∃ a ∈ airports, a.id = destinationAirport.id) :
    findShortestRoute airports routes sourceAirport destinationAirport maxDistance fuel ≠
      some (.error .noRouteFound) :=
  findShortestRoute_ne_noRouteFound airports routes sourceAirport destinationAirport
    maxDistance fuel hdest

/-- Witness for C2's amended theorem at a concrete graph. -/
theorem c2_never_noRouteFound_witness :
    (∃ a ∈ [airportA, airportB], a.id = airportB.id) ∧
    findShortestRoute [airportA, airportB] [] airportA airportB maxStops 5 ≠
      some (.error .noRouteFound) :=
  ⟨⟨airportB, by simp, rfl⟩,
    c2_never_noRouteFound [airportA, airportB] [] airportA airportB maxStops 5
      ⟨airportB, by simp, rfl⟩⟩

/-- C3: the claim says a returned itinerary is never beaten, within the hop
bound, by a strictly shorter one.  With two parallel routes A→B of distances
100 and 10, the relaxation settles B at distance 10, but the path
reconstruction (line 90) looks up the FIRST route matching the endpoint ids —
ignoring the `currDistance` it just computed on line 89 — and returns the
distance-100 route.  The 1-hop itinerary over the distance-10 route is
strictly shorter.  This evaluates the code at that failing input. -/
theorem c3_shorter_itinerary_missed :
    findShortestRoute [airportA, airportB] parallelRoutes airportA airportB maxStops 5 =
      some (.ok [⟨airportA, airportB, 100⟩]) ∧
    isItinerary parallelRoutes airportA airportB [⟨airportA, airportB, 10⟩] = true ∧
    ([⟨airportA, airportB, 10⟩] : List Route).length ≤ 3 ∧
    totalDistance [⟨airportA, airportB, 10⟩] < totalDistance [⟨airportA, airportB, 100⟩] := by
  refine ⟨?_, by decide, by decide, by norm_num [totalDistance, List.foldl]⟩
  norm_num +decide [findShortestRoute, initialNodes, searchLoop, minNode, exploreRoute,
    buildRoute, updateFirst, List.erase, List.find?, List.foldl, maxStops, parallelRoutes,
    airportA, airportB, Node.airport, Node.distanceFromSource,
    beq_self_eq_true', ← WithTop.coe_add]

/-- C4: the claim says that whenever some itinerary within `maxHops` exists
the search returns one.  On the `loopRoutes` graph the 1-hop itinerary A→B
exists (and is found by `reachableWithin`), but the search never returns at
all: the zero-distance self-loop at the source keeps the loop busy forever
(see `findShortestRoute_loopRoutes_none`), so no itinerary is ever returned.
This evaluates the code at that failing input for every fuel. -/
theorem c4_search_hangs_despite_itinerary :
    isItinerary loopRoutes airportA airportB [⟨airportA, airportB, 5⟩] = true ∧
    ([⟨airportA, airportB, 5⟩] : List Route).length ≤ 3 ∧
    ∀ fuel : ℕ,
      findShortestRoute [airportA, airportB] loopRoutes airportA airportB maxStops fuel =
        none :=
  ⟨by decide, by decide, fun fuel => findShortestRoute_loopRoutes_none fuel⟩

/-- C5: when the source airport equals the destination airport (same id,
present in the graph), `findShortestRoute` returns the empty itinerary — zero
routes, cumulative distance 0, hop count 0.  (At least one loop iteration is
needed, hence the `fuel + 1`.) -/
theorem c5_source_equals_destination (airports : List Airport) (routes : List Route)
    (sourceAirport destinationAirport : Airport) (maxDistance : ℚ) (fuel : ℕ)
    (hsrc : ∃ a ∈ airports, a.id = sourceAirport.id)
    (heq : sourceAirport.id = destinationAirport.id) :
    findShortestRoute airports routes sourceAirport destinationAirport maxDistance (fuel + 1) =
      some (.ok []) ∧ totalDistance [] = 0 ∧ ([] : List Route).length = 0 :=
  ⟨findShortestRoute_sourceEqDestination airports routes sourceAirport destinationAirport
    maxDistance fuel hsrc heq, rfl, rfl⟩

/-- Witness for C5 at a concrete graph. -/
theorem c5_source_equals_destination_witness :
    (∃ a ∈ [airportA], a.id = airportA.id) ∧
    (findShortestRoute [airportA] [] airportA airportA maxStops 1 = some (.ok []) ∧
      totalDistance [] = 0 ∧ ([] : List Route).length = 0) :=
  ⟨⟨airportA, by simp, rfl⟩,
    c5_source_equals_destination [airportA] [] airportA airportA maxStops 0
      ⟨airportA, by simp, rfl⟩ rfl⟩

/-- C6: the claim says the search terminates on every finite graph, including
ones with cycles or self-loops reachable from the source.  The `selfLoopOnly`
graph has exactly one route, a self-loop at the source (a legal edge whose
great-circle distance is 0), and the search loop runs forever on it: each
iteration extracts the distance-0 source node, and exploring the self-loop
pushes a fresh copy back (re-adding of visited nodes, lines 107-116) which is
relaxed back to distance 0 because `0 + 0 < 3` passes the line-111 check.
This evaluates the code at that failing input for every fuel. -/
theorem c6_cycle_nontermination :
    (⟨airportA, airportA, 0⟩ : Route) ∈ selfLoopOnly ∧
    ∀ fuel : ℕ,
      findShortestRoute [airportA, airportB] selfLoopOnly airportA airportB maxStops fuel =
        none :=
  ⟨by decide, fun fuel => findShortestRoute_selfLoopOnly_none fuel⟩

/-- C7 counterexample: on `tieRoutes` the 2-hop A→B→C and the 3-hop A→D→E→C
itineraries both have the minimal total distance 10 within the 3-hop bound
(`minDistWithin … = 10` together with `minDistWithin_le` says no bounded
itinerary is cheaper), yet the search returns the 3-hop one, not the fewer-hop
one: there is no secondary ordering key — a tie is resolved by whichever
relaxation set the back-pointer first. -/
theorem c7_tie_break_counterexample :
    isItinerary tieRoutes airportA airportC [⟨airportA, airportB, 5⟩, ⟨airportB, airportC, 5⟩]
        = true ∧
    isItinerary tieRoutes airportA airportC
        [⟨airportA, airportD, 2⟩, ⟨airportD, airportE, 2⟩, ⟨airportE, airportC, 6⟩] = true ∧
    totalDistance [⟨airportA, airportB, 5⟩, ⟨airportB, airportC, 5⟩] =
      totalDistance [⟨airportA, airportD, 2⟩, ⟨airportD, airportE, 2⟩, ⟨airportE, airportC, 6⟩] ∧
    minDistWithin tieRoutes airportA.id airportC.id 3 = ((10 : ℚ) : WithTop ℚ) ∧
    ([⟨airportA, airportB, 5⟩, ⟨airportB, airportC, 5⟩] : List Route).length <
      ([⟨airportA, airportD, 2⟩, ⟨airportD, airportE, 2⟩, ⟨airportE, airportC, 6⟩] :
        List Route).length ∧
    findShortestRoute [airportA, airportB, airportC, airportD, airportE] tieRoutes
        airportA airportC maxStops 12 =
      some (.ok [⟨airportA, airportD, 2⟩, ⟨airportD, airportE, 2⟩, ⟨airportE, airportC, 6⟩]) ∧
    some (Except.ok [⟨airportA, airportD, 2⟩, ⟨airportD, airportE, 2⟩, ⟨airportE, airportC, 6⟩])
        ≠ (some (Except.ok [⟨airportA, airportB, 5⟩, ⟨airportB, airportC, 5⟩]) :
            Option (Except SearchError (List Route))) := by
  refine ⟨by decide, by decide, by norm_num [totalDistance, List.foldl], ?_, by decide, ?_,
    by decide⟩
  · norm_num +decide [minDistWithin, tieRoutes, airportA, airportB, airportC, airportD,
      airportE, List.foldl, ← WithTop.coe_add]
  · norm_num +decide [findShortestRoute, initialNodes, searchLoop, minNode, exploreRoute,
      buildRoute, updateFirst, List.erase, List.find?, List.foldl, maxStops, tieRoutes,
      airportA, airportB, airportC, airportD, airportE, Node.airport, Node.distanceFromSource,
      beq_self_eq_true', ← WithTop.coe_add]

/-- C7 amended: the tie-break policy is absent from the code; among two
equal-minimal-distance itineraries of differing hop counts within the bound,
the search can return the one with MORE hops (the returned path is the one
whose final relaxation happened first in extraction order). -/
theorem c7_tie_break_amended :
    ∃ (airports : List Airport) (routes : List Route) (s d : Airport)
      (iti₁ iti₂ : List Route) (fuel : ℕ),
      isItinerary routes s d iti₁ = true ∧ isItinerary routes s d iti₂ = true ∧
      iti₁.length ≤ 3 ∧ iti₂.length ≤ 3 ∧
      totalDistance iti₁ = totalDistance iti₂ ∧ iti₁.length < iti₂.length ∧
      findShortestRoute airports routes s d maxStops fuel = some (.ok iti₂) := by
  refine ⟨[airportA, airportB, airportC, airportD, airportE], tieRoutes, airportA, airportC,
    [⟨airportA, airportB, 5⟩, ⟨airportB, airportC, 5⟩],
    [⟨airportA, airportD, 2⟩, ⟨airportD, airportE, 2⟩, ⟨airportE, airportC, 6⟩], 12,
    by decide, by decide, by decide, by decide, by norm_num [totalDistance, List.foldl],
    by decide, ?_⟩
  norm_num +decide [findShortestRoute, initialNodes, searchLoop, minNode, exploreRoute,
    buildRoute, updateFirst, List.erase, List.find?, List.foldl, maxStops, tieRoutes,
    airportA, airportB, airportC, airportD, airportE, Node.airport, Node.distanceFromSource,
    beq_self_eq_true', ← WithTop.coe_add]

/-- C8: every non-empty itinerary `findShortestRoute` returns is a valid
chain: its first route leaves the queried source airport, each route leaves
the airport the previous one reached, and its last route reaches the queried
destination airport (`chainIds` states exactly these three conditions). -/
theorem c8_returned_itinerary_is_chain (airports : List Airport) (routes : List Route)
    (sourceAirport destinationAirport : Airport) (maxDistance : ℚ) (fuel : ℕ)
    (rs : List Route)
    (hret : findShortestRoute airports routes sourceAirport destinationAirport maxDistance fuel
      = some (.ok rs))
    (hne : rs ≠ []) :
    chainIds sourceAirport.id rs destinationAirport.id = true :=
  findShortestRoute_chain airports routes sourceAirport destinationAirport maxDistance fuel
    rs hret hne

/-- Witness for C8 at a concrete graph. -/
theorem c8_returned_itinerary_is_chain_witness :
    findShortestRoute [airportA, airportB] [⟨airportA, airportB, 5⟩] airportA airportB
        maxStops 5 = some (.ok [⟨airportA, airportB, 5⟩]) ∧
    chainIds airportA.id [⟨airportA, airportB, 5⟩] airportB.id = true := by
  have hret : findShortestRoute [airportA, airportB] [⟨airportA, airportB, 5⟩] airportA
      airportB maxStops 5 = some (.ok [⟨airportA, airportB, 5⟩]) := by
    norm_num +decide [findShortestRoute, initialNodes, searchLoop, minNode, exploreRoute,
      buildRoute, updateFirst, List.erase, List.find?, List.foldl, maxStops,
      airportA, airportB, Node.airport, Node.distanceFromSource,
      beq_self_eq_true', ← WithTop.coe_add]
  exact ⟨hret, c8_returned_itinerary_is_chain [airportA, airportB] [⟨airportA, airportB, 5⟩]
    airportA airportB maxStops 5 [⟨airportA, airportB, 5⟩] hret (by simp)⟩

/-- C9: for an airport with no outbound routes, the outbound-routes query of
the `/routes-test` handler returns the empty list (it is a total `filter`,
never an error). -/
theorem c9_outbound_routes_empty (routes : List Route) (airport : Airport)
    (h : ∀ r ∈ routes, r.source.id ≠ airport.id) :
    outboundRoutes routes airport = [] := by
  simp only [outboundRoutes]
  rw [List.filter_eq_nil_iff]
  intro r hr
  simp only [beq_iff_eq]
  exact h r hr

/-- Witness for C9 at a concrete graph. -/
theorem c9_outbound_routes_empty_witness :
    (∀ r ∈ [(⟨airportB, airportC, 5⟩ : Route)], r.source.id ≠ airportA.id) ∧
    outboundRoutes [⟨airportB, airportC, 5⟩] airportA = [] :=
  ⟨by decide, c9_outbound_routes_empty [⟨airportB, airportC, 5⟩] airportA (by decide)⟩

/-- C10: on the degenerate query with source equal to destination the search
returns the empty itinerary, and the `/routes` handler's formatting code then
reads `shortestRoute[shortestRoute.length - 1].destination` on an undefined
element and throws: the handler outcome is the formatting fault, so the error
is reachable at the public HTTP interface (any request whose two codes resolve
to the same airport). -/
theorem c10_empty_itinerary_format_fault :
    findShortestRoute [airportA, airportB] [⟨airportA, airportB, 5⟩] airportA airportA
        maxStops 5 = some (.ok []) ∧
    formatResponse airportA airportA [] = none ∧
    routesHandler [airportA, airportB] [⟨airportA, airportB, 5⟩] airportA airportA 5 =
      some .formatFault := by
  refine ⟨?_, rfl, ?_⟩
  · norm_num +decide [findShortestRoute, initialNodes, searchLoop, minNode, exploreRoute,
      buildRoute, updateFirst, List.erase, List.find?, List.foldl, maxStops,
      airportA, airportB, Node.airport, Node.distanceFromSource,
      beq_self_eq_true', ← WithTop.coe_add]
  · norm_num +decide [routesHandler, formatResponse, findShortestRoute, initialNodes,
      searchLoop, minNode, exploreRoute, buildRoute, updateFirst, List.erase, List.find?,
      List.foldl, maxStops, airportA, airportB, Node.airport, Node.distanceFromSource,
      beq_self_eq_true', ← WithTop.coe_add]
